import Mathlib

/-!
Shallow embedding of the page-edit core of `pdf_editor.py`
(`VisualPDFSplitterApp`): the edit-session state (`page_order`,
`deleted_pages`, `page_rotations`, snapshots, `has_edited`), the range
parser `parse_page_ranges`, the mutating operations (`delete_page`,
`bulk_delete_pages`, `reorder_pages`, `rotate_page`, `reset_edit_session`,
`apply_edit_changes_to_pdf`), the output build of `save_edited_pdf`, the
crop transform of `end_crop`, and the merge chain (`get_actual_pdf_path`,
`perform_merge`).

Python text is modelled on `List Char` (obtained from Lean `String`
literals via `String.data`) with structurally recursive helpers, so that
every definition evaluates inside the kernel.  Python `int(...)` is
modelled for optionally minus-signed decimal numerals, which covers every
token shape the parser's callers can produce after a strip.
-/

/-- Whitespace stripping from both ends: models Python `str.strip()`. -/
def trimL (s : List Char) : List Char :=
  ((s.dropWhile Char.isWhitespace).reverse.dropWhile Char.isWhitespace).reverse

/-- Models Python `str.split(',')`: splits at every comma, keeping empty pieces. -/
def splitComma : List Char → List (List Char)
  | [] => [[]]
  | c :: rest =>
    match splitComma rest with
    | [] => [[]]
    | t :: ts => if c = ',' then [] :: t :: ts else (c :: t) :: ts

/-- Value of a decimal digit character, if it is one. -/
def digitVal (c : Char) : Option ℕ :=
  if '0' ≤ c ∧ c ≤ '9' then some (c.toNat - '0'.toNat) else none

/-- Decimal value of a nonempty all-digit character list. -/
def natOfDigits (s : List Char) : Option ℕ :=
  match s with
  | [] => none
  | _ => s.foldl
      (fun acc c =>
        match acc, digitVal c with
        | some n, some d => some (10 * n + d)
        | _, _ => none)
      (some 0)

/-- Models Python `int(...)` on a stripped token: an optional minus sign
followed by decimal digits. -/
def toIntChars (s : List Char) : Option ℤ :=
  match s with
  | '-' :: rest => (natOfDigits rest).map (fun n => -(n : ℤ))
  | _ => (natOfDigits s).map (fun n => (n : ℤ))

/-- Does the token start with a dash (Python `part.startswith('-')`)? -/
def startsWithDash (s : List Char) : Bool :=
  match s with
  | '-' :: _ => true
  | _ => false

/-- Does the token end with a dash (Python `part.endswith('-')`)? -/
def endsWithDash (s : List Char) : Bool :=
  startsWithDash s.reverse

/-- Models Python `range(a, b + 1)` as a list of integers (empty when `b < a`). -/
def intRange (a b : ℤ) : List ℤ :=
  (List.range (b + 1 - a).toNat).map (fun i => a + i)

/-- Error kinds of `parse_page_ranges`; the source distinguishes them only
by `ValueError` message text ("Invalid format ..." versus the positivity and
page-count bound messages). -/
inductive ParseErr where
  | format : ParseErr
  | range : ParseErr
deriving DecidableEq

/-- One iteration of the token loop of `parse_page_ranges`
(src/pdf_editor.py lines 929-964), accumulating into the `pages` set
(modelled as a list whose duplicates are dropped at the end). -/
def parsePart (current_page_count : ℕ) (pages : List ℤ) (part : List Char) :
    Except ParseErr (List ℤ) :=
  if startsWithDash part ∧ 1 < part.length then
    match toIntChars (trimL (part.drop 1)) with
    | none => .error .format
    | some end_page =>
      if end_page < 1 then .error .range
      else if (current_page_count : ℤ) < end_page then .error .range
      else .ok (pages ++ intRange 1 end_page)
  else if endsWithDash part ∧ 1 < part.length then
    match toIntChars (trimL part.dropLast) with
    | none => .error .format
    | some start_page =>
      if start_page < 1 then .error .range
      else if (current_page_count : ℤ) < start_page then .error .range
      else .ok (pages ++ intRange start_page (current_page_count : ℤ))
  else if part.contains '-' ∧ ¬ startsWithDash part ∧ ¬ endsWithDash part then
    match toIntChars (trimL (part.takeWhile (fun c => c ≠ '-'))),
          toIntChars (trimL ((part.dropWhile (fun c => c ≠ '-')).drop 1)) with
    | some s₀, some e₀ =>
      if e₀ < s₀ then .ok (pages ++ intRange e₀ s₀)
      else .ok (pages ++ intRange s₀ e₀)
    | _, _ => .error .format
  else if part = ['-'] then .error .format
  else
    match toIntChars (trimL part) with
    | none => .error .format
    | some page_num => .ok (pages ++ [page_num])

/-- Models Python `sorted(list(pages))` for the accumulated set. -/
def sortedDedup (pages : List ℤ) : List ℤ :=
  pages.dedup.insertionSort (· ≤ ·)

/-- `VisualPDFSplitterApp.parse_page_ranges` (src/pdf_editor.py lines
915-970): parses a comma-separated page-range string into a sorted
duplicate-free list of 1-based positions.  The source reads the current
visible page count from the session; here it is the second argument. -/
def parse_page_ranges (range_string : String) (current_page_count : ℕ) :
    Except ParseErr (List ℤ) :=
  if trimL range_string.data = [] then .ok []
  else
    match ((splitComma range_string.data).map trimL).foldlM
        (parsePart current_page_count) ([] : List ℤ) with
    | .error e => .error e
    | .ok pages => .ok (sortedDedup pages)

/-- Rotation dictionary: models the Python dict `page_rotations`
(1-based page number -> angle), including insertion order and
replace-in-place on an existing key. -/
abbrev RotMap := List (ℕ × ℕ)

/-- Python `d[k] = v`: replace in place if the key exists, else append. -/
def dictSet (m : RotMap) (k v : ℕ) : RotMap :=
  if m.any (fun kv => kv.1 = k) then
    m.map (fun kv => if kv.1 = k then (k, v) else kv)
  else m ++ [(k, v)]

/-- Python `d.pop(k, None)`: drop the entry for `k` if present. -/
def dictErase (m : RotMap) (k : ℕ) : RotMap :=
  m.filter (fun kv => kv.1 ≠ k)

/-- Python `d.get(k, 0)`. -/
def dictGet (m : RotMap) (k : ℕ) : ℕ :=
  (m.lookup k).getD 0

/-- The edit-session fields of `VisualPDFSplitterApp` that the page-edit
operations read and write.  `pageCount` is `len(self.pdf_document)` for the
currently loaded document. -/
structure EditState where
  pageCount : ℕ
  page_order : List ℕ
  original_order : List ℕ
  deleted_pages : Finset ℕ
  page_rotations : RotMap
  original_rotations : RotMap
  has_edited : Bool
deriving DecidableEq

/-- State right after application start / `clear_all_state` plus a document
load: no rotations, nothing deleted (src/pdf_editor.py lines 70, 1528,
1694, 3806). -/
def blankState : EditState :=
  { pageCount := 0
    page_order := []
    original_order := []
    deleted_pages := ∅
    page_rotations := []
    original_rotations := []
    has_edited := false }

/-- `VisualPDFSplitterApp.initialize_edit_session` (src/pdf_editor.py lines
614-622) for a loaded document of `n` pages: fresh order `[0..n-1]`,
snapshot copies, empty deleted set, `has_edited = False`.  Note the source
copies `page_rotations` into `original_rotations` but does **not** clear
`page_rotations` itself. -/
def init_edit_session (n : ℕ) (s : EditState) : EditState :=
  { pageCount := n
    page_order := List.range n
    original_order := List.range n
    deleted_pages := ∅
    page_rotations := s.page_rotations
    original_rotations := s.page_rotations
    has_edited := false }

/-- `VisualPDFSplitterApp.delete_page` (src/pdf_editor.py lines 888-913),
confirmed path: move the identity at 0-based display position `page_index`
from `page_order` into `deleted_pages` and mark the session edited.  An
out-of-range index raises before any mutation, leaving the state as is. -/
def delete_page (s : EditState) (page_index : ℕ) : EditState :=
  if h : page_index < s.page_order.length then
    let actual_page_index := s.page_order.get ⟨page_index, h⟩
    { s with
      deleted_pages := insert actual_page_index s.deleted_pages
      page_order := s.page_order.eraseIdx page_index
      has_edited := true }
  else s

/-- `VisualPDFSplitterApp.reorder_pages` (src/pdf_editor.py lines
1241-1272): pop the identity at 0-based `source_index`; decrement
`target_index` when it exceeds `source_index` (compensating for the
removal shift); insert.  Python `list.insert` clamps an over-large index
to an append, modelled by the `min`.  Equal indices are a no-op; a raised
`IndexError` is caught with no mutation. -/
def reorder_pages (s : EditState) (source_index target_index : ℕ) : EditState :=
  if source_index = target_index then s
  else if h : source_index < s.page_order.length then
    let page_num := s.page_order.get ⟨source_index, h⟩
    let popped := s.page_order.eraseIdx source_index
    let t := if source_index < target_index then target_index - 1 else target_index
    { s with
      page_order := popped.insertIdx (min t popped.length) page_num
      has_edited := true }
  else s

/-- The "currently visible pages" recomputed throughout the source
(e.g. src/pdf_editor.py lines 922-924, 994-996). -/
def currentVisiblePages (s : EditState) : List ℕ :=
  s.page_order.filter (fun idx => idx ∉ s.deleted_pages)

/-- `VisualPDFSplitterApp.bulk_delete_pages` (src/pdf_editor.py lines
972-1054), confirmed path: parse the entry text as 1-based positions into
the current visible order, validate every position, resolve the positions
to identities against the same snapshot, and only then delete them as one
batch.  Every early-return (empty input, parse error, empty position list,
any invalid position, empty resolution) leaves the state unchanged. -/
def bulk_delete_pages (s : EditState) (entry_text : String) : EditState :=
  if trimL entry_text.data = [] then s
  else
    match parse_page_ranges entry_text (currentVisiblePages s).length with
    | .error _ => s
    | .ok positions_to_delete =>
      if positions_to_delete = [] then s
      else
        let current_visible_pages := currentVisiblePages s
        let current_page_count := current_visible_pages.length
        let invalid_positions := positions_to_delete.filter
          (fun p => p < 1 ∨ (current_page_count : ℤ) < p)
        if invalid_positions ≠ [] then s
        else
          let actual_page_indices_to_delete := positions_to_delete.filterMap
            (fun position => current_visible_pages.get? (position - 1).toNat)
          if actual_page_indices_to_delete = [] then s
          else
            { s with
              deleted_pages :=
                s.deleted_pages ∪ actual_page_indices_to_delete.toFinset
              page_order := s.page_order.filter
                (fun p => p ∉ actual_page_indices_to_delete)
              has_edited := true }

/-- `VisualPDFSplitterApp.rotate_page` (src/pdf_editor.py lines 2201-2225):
`new = (current + angle) mod 360`; zero removes the entry, otherwise it is
stored.  `page_number` is the 1-based original page number; `has_edited` is
untouched. -/
def rotate_page (s : EditState) (page_number : ℕ) (angle : ℤ) : EditState :=
  let current_rotation : ℤ := (dictGet s.page_rotations page_number : ℕ)
  let new_rotation := (current_rotation + angle) % 360
  if new_rotation = 0 then
    { s with page_rotations := dictErase s.page_rotations page_number }
  else
    { s with page_rotations := dictSet s.page_rotations page_number new_rotation.toNat }

/-- `VisualPDFSplitterApp.reset_edit_session` (src/pdf_editor.py lines
1291-1328), confirmed path: restore order and rotations from the
session-start snapshots and clear the deleted set; a session with nothing
to reset is left untouched. -/
def reset_edit_session (s : EditState) : EditState :=
  if s.has_edited = false ∧ s.deleted_pages = ∅ ∧ s.page_rotations = [] then s
  else
    { s with
      page_order := s.original_order
      has_edited := false
      deleted_pages := ∅
      page_rotations := s.original_rotations }

/-- The surviving identities in display order: `page_order` minus
`deleted_pages`, as iterated by the output-building loops. -/
def surviving (s : EditState) : List ℕ :=
  s.page_order.filter (fun p => p ∉ s.deleted_pages)

/-- `VisualPDFSplitterApp.apply_edit_changes_to_pdf` (src/pdf_editor.py
lines 754-835): with nothing to apply it returns untouched; otherwise it
writes the surviving pages (an out-of-range identity raises `IndexError`,
caught with the in-memory session unchanged), reloads the written document
(whose length is the surviving count), and calls
`initialize_edit_session` on it. -/
def apply_edit_changes (s : EditState) : EditState :=
  if s.has_edited = false ∧ s.deleted_pages = ∅ ∧ s.page_rotations = [] then s
  else if (surviving s).all (fun p => p < s.pageCount) then
    init_edit_session (surviving s).length s
  else s

/-- Rotation baked into an output page for original identity `page_index`
by `save_edited_pdf` (src/pdf_editor.py lines 1397-1408): the dict is keyed
by the 1-based original page number, and only the angles 90, 180, 270 are
applied. -/
def effRotation (s : EditState) (page_index : ℕ) : ℕ :=
  match s.page_rotations.lookup (page_index + 1) with
  | some a => if a = 90 then 90 else if a = 180 then 180 else if a = 270 then 270 else 0
  | none => 0

/-- The output document built by `VisualPDFSplitterApp.save_edited_pdf`
(src/pdf_editor.py lines 1384-1411) over a source of `numSourcePages`
pages: each output page is (original identity, baked rotation).  Deleted
identities are skipped by `continue`; an identity with
`page_index >= len(pdf_reader.pages)` is skipped by the guard
`if page_index < len(pdf_reader.pages)` with no error. -/
def save_edited_pages (s : EditState) (numSourcePages : ℕ) : List (ℕ × ℕ) :=
  s.page_order.filterMap
    (fun page_index =>
      if page_index ∈ s.deleted_pages then none
      else if page_index < numSourcePages then
        some (page_index, effRotation s page_index)
      else none)

/-- `VisualPDFSplitterApp.end_crop` (src/pdf_editor.py lines 3074-3124):
reject selections under 10 pixels in either direction (Python
`abs(end_x - start_x) < 10`, modelled with `Int.natAbs`), normalize the two
drag corners, reject degenerate thumbnail dimensions, and scale
thumbnail-pixel coordinates to document units.  Pixel coordinates and
thumbnail dimensions are integers in the source (Tk event/widget values);
the page geometry and the produced rectangle are rationals. -/
def end_crop (start_x start_y end_x end_y thumb_width thumb_height : ℤ)
    (page_width page_height : ℚ) : Option (ℚ × ℚ × ℚ × ℚ) :=
  if (end_x - start_x).natAbs < 10 ∨ (end_y - start_y).natAbs < 10 then none
  else
    let x1 := min start_x end_x
    let x2 := max start_x end_x
    let y1 := min start_y end_y
    let y2 := max start_y end_y
    if thumb_width ≤ 1 ∨ thumb_height ≤ 1 then none
    else
      some ((x1 : ℚ) / (thumb_width : ℚ) * page_width,
            (y1 : ℚ) / (thumb_height : ℚ) * page_height,
            (x2 : ℚ) / (thumb_width : ℚ) * page_width,
            (y2 : ℚ) / (thumb_height : ℚ) * page_height)

/-- `VisualPDFSplitterApp.get_actual_pdf_path` (src/pdf_editor.py lines
861-865): the recorded materialized temp path if one exists for this
logical path, else the path itself.  `pdf_modifications` is modelled as an
association list `sourcePath -> materializedTempPath`. -/
def get_actual_pdf_path (pdf_modifications : List (String × String))
    (original_path : String) : String :=
  match pdf_modifications.lookup original_path with
  | some temp_path => temp_path
  | none => original_path

/-- `VisualPDFSplitterApp.perform_merge` (src/pdf_editor.py lines
3686-3734): resolve both logical paths through the merge record, open
both, and concatenate all pages of the first then all pages of the second.
The filesystem/backend is modelled as a map from path to page list. -/
def perform_merge {α : Type} (fs : String → List α)
    (mods : List (String × String)) (first_pdf_path second_pdf_path : String) :
    List α :=
  fs (get_actual_pdf_path mods first_pdf_path) ++
    fs (get_actual_pdf_path mods second_pdf_path)

/-- The condition every change-sensitive entry point of the source tests
(src/pdf_editor.py lines 630, 757, 1294, 1353): the session "has changes"
iff a reorder/delete happened (`has_edited`) or pages are deleted or the
rotation dict is nonempty. -/
def codeDirty (s : EditState) : Bool :=
  s.has_edited || !(decide (s.deleted_pages = ∅)) || !(decide (s.page_rotations = []))

/-- The dirty predicate as the specification states it: any divergence
from the session-start snapshots. -/
def specDirty (s : EditState) : Prop :=
  s.page_order ≠ s.original_order ∨ s.deleted_pages ≠ ∅ ∨
    s.page_rotations ≠ s.original_rotations

/-- The five mutating session operations named by the invariants claim. -/
inductive EditOp where
  | del (page_index : ℕ) : EditOp
  | bulk (entry_text : String) : EditOp
  | reorder (source_index target_index : ℕ) : EditOp
  | rot (page_number : ℕ) (angle : ℤ) : EditOp
  | reset : EditOp

/-- Apply one mutating operation. -/
def applyOp (s : EditState) : EditOp → EditState
  | .del i => delete_page s i
  | .bulk t => bulk_delete_pages s t
  | .reorder i j => reorder_pages s i j
  | .rot p a => rotate_page s p a
  | .reset => reset_edit_session s

/-- Run a sequence of mutating operations. -/
def runOps (s : EditState) (ops : List EditOp) : EditState :=
  ops.foldl applyOp s

/-! ### Helper lemmas on list surgery -/

/-- Inserting at a position within bounds is, up to permutation, a `cons`. -/
theorem insertIdx_perm_cons {α : Type} (a : α) :
    ∀ (n : ℕ) (l : List α), n ≤ l.length → (List.insertIdx n a l).Perm (a :: l) := by
  intro n
  induction n with
  | zero => intro l _; rw [List.insertIdx_zero]
  | succ m ih =>
    intro l h
    cases l with
    | nil => simp at h
    | cons b t =>
      rw [List.insertIdx_succ_cons]
      exact (List.Perm.cons b (ih t (Nat.le_of_succ_le_succ h))).trans
        (List.Perm.swap a b t)

/-- A list is, up to permutation, its `i`-th element consed onto the removal. -/
theorem perm_get_cons_eraseIdx {α : Type} :
    ∀ (l : List α) (i : ℕ) (h : i < l.length),
      l.Perm (l.get ⟨i, h⟩ :: l.eraseIdx i) := by
  intro l
  induction l with
  | nil => intro i h; simp at h
  | cons b t ih =>
    intro i h
    cases i with
    | zero =>
      rw [List.eraseIdx_cons_zero]
      exact List.Perm.refl _
    | succ j =>
      have hj : j < t.length := Nat.lt_of_succ_lt_succ h
      rw [List.eraseIdx_cons_succ]
      have step1 : (b :: t).Perm (b :: (t.get ⟨j, hj⟩ :: t.eraseIdx j)) :=
        List.Perm.cons b (ih j hj)
      exact step1.trans (List.Perm.swap (t.get ⟨j, hj⟩) b (t.eraseIdx j))

/-! ### The session well-formedness invariant -/

/-- Well-formedness of an edit session: `page_order` is duplicate-free and
disjoint from `deleted_pages`, together they account for every page of the
document loaded at session start, and the session-start snapshot is a
duplicate-free enumeration of that document. -/
structure WFinv (s : EditState) : Prop where
  nodup : s.page_order.Nodup
  disj : ∀ p ∈ s.page_order, p ∉ s.deleted_pages
  sum : s.page_order.length + s.deleted_pages.card = s.pageCount
  orig_nodup : s.original_order.Nodup
  orig_len : s.original_order.length = s.pageCount

theorem wfinv_init (n : ℕ) (s : EditState) : WFinv (init_edit_session n s) := by
  unfold init_edit_session
  refine ⟨List.nodup_range n, ?_, ?_, List.nodup_range n, List.length_range n⟩
  · intro p _ hp
    exact absurd hp (Finset.not_mem_empty p)
  · show (List.range n).length + (∅ : Finset ℕ).card = n
    simp

theorem wfinv_delete_page (s : EditState) (h : WFinv s) (i : ℕ) :
    WFinv (delete_page s i) := by
  unfold delete_page
  split
  case isTrue hi =>
    have hperm := perm_get_cons_eraseIdx s.page_order i hi
    have hx_mem : s.page_order.get ⟨i, hi⟩ ∈ s.page_order :=
      List.get_mem s.page_order i hi
    have hxd : s.page_order.get ⟨i, hi⟩ ∉ s.deleted_pages := h.disj _ hx_mem
    have hcons : (s.page_order.get ⟨i, hi⟩ :: s.page_order.eraseIdx i).Nodup :=
      hperm.nodup_iff.mp h.nodup
    have hx_not : s.page_order.get ⟨i, hi⟩ ∉ s.page_order.eraseIdx i :=
      (List.nodup_cons.mp hcons).1
    refine ⟨(List.nodup_cons.mp hcons).2, ?_, ?_, h.orig_nodup, h.orig_len⟩
    · intro p hp
      have hp' : p ∈ s.page_order.eraseIdx i := hp
      have hp_order : p ∈ s.page_order :=
        hperm.mem_iff.mpr (List.mem_cons_of_mem _ hp')
      have hp_ne : p ≠ s.page_order.get ⟨i, hi⟩ := by
        intro he
        exact hx_not (he ▸ hp')
      show p ∉ insert (s.page_order.get ⟨i, hi⟩) s.deleted_pages
      simp only [Finset.mem_insert]
      rintro (he | hd)
      · exact hp_ne he
      · exact h.disj p hp_order hd
    · show (s.page_order.eraseIdx i).length +
          (insert (s.page_order.get ⟨i, hi⟩) s.deleted_pages).card = s.pageCount
      have hlen : s.page_order.length = (s.page_order.eraseIdx i).length + 1 := by
        simpa using hperm.length_eq
      have hcard :
          (insert (s.page_order.get ⟨i, hi⟩) s.deleted_pages).card =
            s.deleted_pages.card + 1 := Finset.card_insert_of_not_mem hxd
      have hsum := h.sum
      omega
  case isFalse => exact h

/-- Replacing the order by any permutation of it (and setting the edited
flag) preserves well-formedness. -/
theorem wfinv_replace_order (s : EditState) (h : WFinv s) (l : List ℕ)
    (hperm : l.Perm s.page_order) :
    WFinv { s with page_order := l, has_edited := true } := by
  refine ⟨hperm.nodup_iff.mpr h.nodup, ?_, ?_, h.orig_nodup, h.orig_len⟩
  · intro p hp
    exact h.disj p (hperm.mem_iff.mp hp)
  · show l.length + s.deleted_pages.card = s.pageCount
    rw [hperm.length_eq]
    exact h.sum

theorem wfinv_reorder_pages (s : EditState) (h : WFinv s) (i j : ℕ) :
    WFinv (reorder_pages s i j) := by
  unfold reorder_pages
  split
  · exact h
  split
  case isTrue hi =>
    dsimp only
    exact wfinv_replace_order s h _
      ((insertIdx_perm_cons _ _ _ (min_le_right _ _)).trans
        (perm_get_cons_eraseIdx s.page_order i hi).symm)
  case isFalse => exact h

theorem wfinv_rotate_page (s : EditState) (h : WFinv s) (p : ℕ) (a : ℤ) :
    WFinv (rotate_page s p a) := by
  unfold rotate_page
  dsimp only
  split <;> exact ⟨h.nodup, h.disj, h.sum, h.orig_nodup, h.orig_len⟩

theorem wfinv_reset_edit_session (s : EditState) (h : WFinv s) :
    WFinv (reset_edit_session s) := by
  unfold reset_edit_session
  split
  · exact h
  · refine ⟨h.orig_nodup, ?_, ?_, h.orig_nodup, h.orig_len⟩
    · intro p _ hp
      exact absurd hp (Finset.not_mem_empty p)
    · show s.original_order.length + (∅ : Finset ℕ).card = s.pageCount
      simp [h.orig_len]

theorem wfinv_bulk_delete_pages (s : EditState) (h : WFinv s) (t : String) :
    WFinv (bulk_delete_pages s t) := by
  unfold bulk_delete_pages
  split
  · exact h
  split
  · exact h
  rename_i positions hparse
  split
  · exact h
  dsimp only
  split
  · exact h
  split
  · exact h
  rename_i hinv hact
  have hAsub : ∀ x ∈ positions.filterMap
      (fun position => (currentVisiblePages s).get? (position - 1).toNat),
      x ∈ s.page_order ∧ x ∉ s.deleted_pages := by
    intro x hx
    rw [List.mem_filterMap] at hx
    obtain ⟨pos, _, hget⟩ := hx
    have hxv : x ∈ currentVisiblePages s := List.get?_mem hget
    unfold currentVisiblePages at hxv
    rw [List.mem_filter] at hxv
    exact ⟨hxv.1, by simpa using hxv.2⟩
  set A := positions.filterMap
    (fun position => (currentVisiblePages s).get? (position - 1).toNat) with hA
  have hFsub : A.toFinset ⊆ s.page_order.toFinset := by
    intro x hx
    exact List.mem_toFinset.mpr (hAsub x (List.mem_toFinset.mp hx)).1
  have hdisjF : Disjoint s.deleted_pages A.toFinset := by
    rw [Finset.disjoint_left]
    intro x hxd hxF
    exact (hAsub x (List.mem_toFinset.mp hxF)).2 hxd
  have hnodup' : (s.page_order.filter (fun p => p ∉ A)).Nodup :=
    h.nodup.filter _
  have htofin : (s.page_order.filter (fun p => p ∉ A)).toFinset =
      s.page_order.toFinset \ A.toFinset := by
    ext x
    simp [List.mem_filter, Finset.mem_sdiff]
  have hlen' : (s.page_order.filter (fun p => p ∉ A)).length =
      s.page_order.length - A.toFinset.card := by
    rw [← List.toFinset_card_of_nodup hnodup', htofin, Finset.card_sdiff hFsub,
      List.toFinset_card_of_nodup h.nodup]
  have hcard' : (s.deleted_pages ∪ A.toFinset).card =
      s.deleted_pages.card + A.toFinset.card :=
    Finset.card_union_of_disjoint hdisjF
  have hFle : A.toFinset.card ≤ s.page_order.length := by
    rw [← List.toFinset_card_of_nodup h.nodup]
    exact Finset.card_le_card hFsub
  refine ⟨hnodup', ?_, ?_, h.orig_nodup, h.orig_len⟩
  · intro p hp
    have hp' : p ∈ s.page_order.filter (fun p => p ∉ A) := hp
    rw [List.mem_filter] at hp'
    have hpA : p ∉ A := by simpa using hp'.2
    show p ∉ s.deleted_pages ∪ A.toFinset
    rw [Finset.mem_union]
    rintro (hd | hF)
    · exact h.disj p hp'.1 hd
    · exact hpA (List.mem_toFinset.mp hF)
  · show (s.page_order.filter (fun p => p ∉ A)).length +
        (s.deleted_pages ∪ A.toFinset).card = s.pageCount
    have hsum := h.sum
    omega

theorem wfinv_applyOp (s : EditState) (h : WFinv s) (op : EditOp) :
    WFinv (applyOp s op) := by
  cases op with
  | del i => exact wfinv_delete_page s h i
  | bulk t => exact wfinv_bulk_delete_pages s h t
  | reorder i j => exact wfinv_reorder_pages s h i j
  | rot p a => exact wfinv_rotate_page s h p a
  | reset => exact wfinv_reset_edit_session s h

theorem wfinv_runOps (s : EditState) (h : WFinv s) (ops : List EditOp) :
    WFinv (runOps s ops) := by
  induction ops generalizing s with
  | nil => exact h
  | cons op ops ih => exact ih (applyOp s op) (wfinv_applyOp s h op)

/-- No mutating operation touches the page count of the loaded document or
the session-start snapshots. -/
theorem applyOp_consts (s : EditState) (op : EditOp) :
    (applyOp s op).pageCount = s.pageCount ∧
      (applyOp s op).original_order = s.original_order ∧
      (applyOp s op).original_rotations = s.original_rotations := by
  cases op <;>
    unfold applyOp delete_page bulk_delete_pages reorder_pages rotate_page
      reset_edit_session <;>
    (repeat' (first | split | (dsimp only; split))) <;> exact ⟨rfl, rfl, rfl⟩

theorem runOps_consts (s : EditState) (ops : List EditOp) :
    (runOps s ops).pageCount = s.pageCount ∧
      (runOps s ops).original_order = s.original_order ∧
      (runOps s ops).original_rotations = s.original_rotations := by
  induction ops generalizing s with
  | nil => exact ⟨rfl, rfl, rfl⟩
  | cons op ops ih =>
    obtain ⟨h1, h2, h3⟩ := ih (applyOp s op)
    obtain ⟨g1, g2, g3⟩ := applyOp_consts s op
    exact ⟨h1.trans g1, h2.trans g2, h3.trans g3⟩


/-! ### The one-directional dirty invariant -/

/-- Property making the code's change indicator one-directional: while no
reorder/delete has been recorded the order still equals its snapshot, and
(for a session opened on a freshly loaded document) the rotation snapshot
is empty. -/
def dirtyQ (s : EditState) : Prop :=
  (s.has_edited = false → s.page_order = s.original_order) ∧
    s.original_rotations = []

theorem dirtyQ_applyOp (s : EditState) (h : dirtyQ s) (op : EditOp) :
    dirtyQ (applyOp s op) := by
  cases op <;>
    unfold applyOp delete_page bulk_delete_pages reorder_pages rotate_page
      reset_edit_session <;>
    (repeat' (first | split | (dsimp only; split))) <;>
    first
      | exact h
      | exact ⟨fun hf => Bool.noConfusion hf, h.2⟩
      | exact ⟨fun _ => rfl, h.2⟩

theorem dirtyQ_runOps_of (s : EditState) (h : dirtyQ s) (ops : List EditOp) :
    dirtyQ (runOps s ops) := by
  induction ops generalizing s with
  | nil => exact h
  | cons op ops ih => exact ih (applyOp s op) (dirtyQ_applyOp s h op)

/-! ### Claim theorems -/

/-- C1 (counterexample): on a 4-page session `[A,B,C,D] = [0,1,2,3]`, the
reorder with 1-based source position 1 and target position 3 — 0-based
`reorder_pages s 0 2` — does **not** produce `[B,C,A,D] = [1,2,0,3]`: the
decrement of the target index after the pop makes the moved page land one
position earlier. -/
theorem c1_counterexample :
    (reorder_pages (init_edit_session 4 blankState) 0 2).page_order ≠
      [1, 2, 0, 3] := by decide

/-- C1 (amended): `reorder(1,3)` on `order=[A,B,C,D]` yields
`[B,A,C,D] = [1,0,2,3]` — after popping the source, the target index is
decremented because it exceeds the source, so the page is inserted
immediately before the page originally at the target position. -/
theorem c1_reorder_amended :
    (reorder_pages (init_edit_session 4 blankState) 0 2).page_order =
      [1, 0, 2, 3] := by rfl

/-- C2: for every edit session (any starting state and page count) and
after every sequence of mutating operations (single delete, bulk delete,
reorder, rotate, reset), the number of identities in `page_order` plus the
number in `deleted_pages` equals the page count of the document at session
start. -/
theorem c2_order_deleted_partition (s₀ : EditState) (n : ℕ) (ops : List EditOp) :
    (runOps (init_edit_session n s₀) ops).page_order.length +
      (runOps (init_edit_session n s₀) ops).deleted_pages.card = n := by
  have hwf := wfinv_runOps (init_edit_session n s₀) (wfinv_init n s₀) ops
  have hpc := (runOps_consts (init_edit_session n s₀) ops).1
  have hsum := hwf.sum
  rw [hpc] at hsum
  exact hsum

/-- C3: `bulkDelete` resolves 1-based positions against the current order
at call time and deletes them as one atomic batch: on `[A,B,C,D,E]`,
positions `{2,4}` leave `order=[A,C,E]` and `deleted={B,D}`; on a session
where `A` was already deleted, position 2 names the identity `C`; and if
any parsed position is out of range the call makes no mutation at all. -/
theorem c3_bulk_delete_atomic :
    ((bulk_delete_pages (init_edit_session 5 blankState) "2,4").page_order =
        [0, 2, 4] ∧
      (bulk_delete_pages (init_edit_session 5 blankState) "2,4").deleted_pages =
        {1, 3}) ∧
    (bulk_delete_pages (delete_page (init_edit_session 5 blankState) 0)
        "2").deleted_pages = {0, 2} ∧
    ∀ (s : EditState) (t : String) (ps : List ℤ),
      parse_page_ranges t (currentVisiblePages s).length = .ok ps →
      (∃ p ∈ ps, p < 1 ∨ ((currentVisiblePages s).length : ℤ) < p) →
      bulk_delete_pages s t = s := by
  refine ⟨⟨by decide, by decide⟩, by decide, ?_⟩
  intro s t ps hparse hex
  obtain ⟨p, hpmem, hpbad⟩ := hex
  have hps : ps ≠ [] := List.ne_nil_of_mem hpmem
  unfold bulk_delete_pages
  split
  · rfl
  · split
    · rfl
    · rename_i positions heq
      rw [hparse] at heq
      injection heq with heq
      subst heq
      rw [if_neg hps]
      dsimp only
      have hpfilter : p ∈ ps.filter
          (fun p => decide (p < 1 ∨ ((currentVisiblePages s).length : ℤ) < p)) :=
        List.mem_filter.mpr ⟨hpmem, by simpa using hpbad⟩
      rw [if_pos (List.ne_nil_of_mem hpfilter)]

/-- C3 witness: a batch containing the out-of-range position 9 on a 5-page
session mutates nothing. -/
theorem c3_bulk_delete_atomic_witness :
    bulk_delete_pages (init_edit_session 5 blankState) "9" =
      init_edit_session 5 blankState :=
  c3_bulk_delete_atomic.2.2 (init_edit_session 5 blankState) "9" [9] (by rfl)
    ⟨9, by decide, by decide⟩

/-- C4 (code evaluated at the failing input): rotating page 1 by 90 on a
1-page session and applying does reinitialize order and the deleted set and
clears `has_edited`, but the rotation map is **not** reset to empty — it
still holds the already-baked-in rotation, so the code's own change check
(`codeDirty`) immediately reports pending changes again. -/
theorem c4_rotations_persist_after_apply :
    (apply_edit_changes (rotate_page (init_edit_session 1 blankState) 1
      90)).page_order = [0] ∧
    (apply_edit_changes (rotate_page (init_edit_session 1 blankState) 1
      90)).deleted_pages = ∅ ∧
    (apply_edit_changes (rotate_page (init_edit_session 1 blankState) 1
      90)).has_edited = false ∧
    (apply_edit_changes (rotate_page (init_edit_session 1 blankState) 1
      90)).page_rotations = [(1, 90)] ∧
    codeDirty (apply_edit_changes (rotate_page (init_edit_session 1 blankState)
      1 90)) = true := by
  exact ⟨by rfl, by decide, by rfl, by rfl, by decide⟩

/-- C5 (counterexample): on a session whose order holds the stale identity
5 over a 1-page source, the build of `save_edited_pdf` returns normally
with a single page — the out-of-range identity is silently dropped, and no
error of any kind is raised. -/
theorem c5_counterexample :
    save_edited_pages
      { blankState with pageCount := 6, page_order := [0, 5],
                        original_order := [0, 5] } 1 = [(0, 0)] ∧
    (surviving
      { blankState with pageCount := 6, page_order := [0, 5],
                        original_order := [0, 5] }).length = 2 := by
  exact ⟨by rfl, by rfl⟩

/-- C5 (amended): the build never fails; it emits exactly the surviving
identities that are in range for the source, in order, each with its baked
rotation — identities the source cannot supply are silently skipped. -/
theorem c5_build_skips_out_of_range (s : EditState) (n : ℕ) :
    save_edited_pages s n =
      ((surviving s).filter (fun p => p < n)).map
        (fun p => (p, effRotation s p)) := by
  unfold save_edited_pages surviving
  generalize s.page_order = l
  induction l with
  | nil => rfl
  | cons a l ih =>
    by_cases hd : a ∈ s.deleted_pages
    · simpa [List.filterMap_cons, List.filter_cons, hd] using ih
    · by_cases hn : a < n
      · simpa [List.filterMap_cons, List.filter_cons, hd, hn] using ih
      · simpa [List.filterMap_cons, List.filter_cons, hd, hn] using ih

/-- C6 (counterexample): a reorder followed by the inverse reorder restores
order, deleted set and rotations to their snapshots, yet the code still
reports the session as changed — `has_edited` is sticky, so the claimed
equivalence of the dirty flag with snapshot divergence is false. -/
theorem c6_counterexample :
    codeDirty (reorder_pages (reorder_pages (init_edit_session 2 blankState)
      1 0) 1 0) = true ∧
    ¬ specDirty (reorder_pages (reorder_pages (init_edit_session 2 blankState)
      1 0) 1 0) := by
  refine ⟨by decide, ?_⟩
  unfold specDirty
  decide

/-- C6 (amended): the dirty signal is one-directional.  For any session
opened on a freshly loaded document, whenever the order, the deleted set or
the rotations diverge from their session-start snapshots the code reports
changes; the converse fails (`c6_counterexample`), because `has_edited`
stays set under an inverse reorder and rotation dirtiness is compared
against the empty dict rather than the snapshot. -/
theorem c6_dirty_one_directional (n : ℕ) (ops : List EditOp)
    (h : specDirty (runOps (init_edit_session n blankState) ops)) :
    codeDirty (runOps (init_edit_session n blankState) ops) = true := by
  have hQ := dirtyQ_runOps_of (init_edit_session n blankState)
    ⟨fun _ => rfl, rfl⟩ ops
  rcases h with ho | hd | hr
  · cases hhe : (runOps (init_edit_session n blankState) ops).has_edited with
    | true => simp [codeDirty, hhe]
    | false => exact absurd (hQ.1 hhe) ho
  · simp [codeDirty, hd]
  · have hne : (runOps (init_edit_session n blankState) ops).page_rotations ≠ [] := by
      rw [hQ.2] at hr
      exact hr
    simp [codeDirty, hne]

/-- C6 witness: deleting the first page of a fresh 2-page session makes the
snapshots diverge, and the code indeed reports changes. -/
theorem c6_dirty_one_directional_witness :
    codeDirty (runOps (init_edit_session 2 blankState) [EditOp.del 0]) = true :=
  c6_dirty_one_directional 2 [EditOp.del 0] (Or.inr (Or.inl (by decide)))

/-- C7: the range parser satisfies the reference equations
`parse("-3",10)={1,2,3}`, `parse("3-",10)={3..10}`,
`parse("2-4,7",10)={2,3,4,7}`, `parse("5-2",10)={2,3,4,5}` (reversed bounds
swapped), empty input gives the empty set, and every successful result is a
sorted duplicate-free list of integers. -/
theorem c7_parse_reference :
    parse_page_ranges "-3" 10 = .ok [1, 2, 3] ∧
    parse_page_ranges "3-" 10 = .ok [3, 4, 5, 6, 7, 8, 9, 10] ∧
    parse_page_ranges "2-4,7" 10 = .ok [2, 3, 4, 7] ∧
    parse_page_ranges "5-2" 10 = .ok [2, 3, 4, 5] ∧
    parse_page_ranges "" 10 = .ok [] ∧
    ∀ (t : String) (c : ℕ) (ps : List ℤ),
      parse_page_ranges t c = .ok ps → ps.Sorted (· ≤ ·) ∧ ps.Nodup := by
  refine ⟨by rfl, by rfl, by rfl, by rfl, by rfl, ?_⟩
  intro t c ps hok
  unfold parse_page_ranges at hok
  split at hok
  · injection hok with h
    subst h
    exact ⟨List.sorted_nil, List.nodup_nil⟩
  · split at hok
    · exact Except.noConfusion hok
    · injection hok with h
      subst h
      constructor
      · exact List.sorted_insertionSort _ _
      · exact (List.perm_insertionSort _ _).nodup_iff.mpr (List.nodup_dedup _)

/-- C7 witness: the sortedness guarantee applied at `parse("2-4,7",10)`. -/
theorem c7_parse_reference_witness :
    List.Sorted (· ≤ ·) ([2, 3, 4, 7] : List ℤ) ∧
      ([2, 3, 4, 7] : List ℤ).Nodup :=
  c7_parse_reference.2.2.2.2.2 "2-4,7" 10 [2, 3, 4, 7] (by rfl)

/-- C8: the crop transform maps the thumbnail rectangle to
`(x1/tw*pw, y1/th*ph, x2/tw*pw, y2/th*ph)` after normalizing the drag
corners (drag direction is irrelevant), and rejects rectangles under 10
pixels wide or tall; in particular thumbnail 150x200 with rect
(75,100)-(150,200) on a 600x800 page gives (300,400)-(600,800). -/
theorem c8_crop_transform :
    end_crop 75 100 150 200 150 200 600 800 = some (300, 400, 600, 800) ∧
    (∀ (sx sy ex ey tw th : ℤ) (pw ph : ℚ),
      end_crop sx sy ex ey tw th pw ph = end_crop ex ey sx sy tw th pw ph) ∧
    (∀ (sx sy ex ey tw th : ℤ) (pw ph : ℚ),
      (ex - sx).natAbs < 10 ∨ (ey - sy).natAbs < 10 →
      end_crop sx sy ex ey tw th pw ph = none) ∧
    (∀ (sx sy ex ey tw th : ℤ) (pw ph : ℚ),
      ¬((ex - sx).natAbs < 10 ∨ (ey - sy).natAbs < 10) →
      ¬(tw ≤ 1 ∨ th ≤ 1) →
      end_crop sx sy ex ey tw th pw ph =
        some (((min sx ex : ℤ) : ℚ) / (tw : ℚ) * pw,
              ((min sy ey : ℤ) : ℚ) / (th : ℚ) * ph,
              ((max sx ex : ℤ) : ℚ) / (tw : ℚ) * pw,
              ((max sy ey : ℤ) : ℚ) / (th : ℚ) * ph)) := by
  refine ⟨by norm_num [end_crop], ?_, ?_, ?_⟩
  · intro sx sy ex ey tw th pw ph
    have h1 : (ex - sx).natAbs = (sx - ex).natAbs := by omega
    have h2 : (ey - sy).natAbs = (sy - ey).natAbs := by omega
    unfold end_crop
    rw [h1, h2, min_comm sx ex, min_comm sy ey, max_comm sx ex, max_comm sy ey]
  · intro sx sy ex ey tw th pw ph h
    unfold end_crop
    rw [if_pos h]
  · intro sx sy ex ey tw th pw ph h1 h2
    unfold end_crop
    rw [if_neg h1]
    dsimp only
    rw [if_neg h2]

/-- C8 witness: a 5-pixel-wide drag is rejected. -/
theorem c8_crop_transform_witness :
    end_crop 0 0 5 100 150 200 600 800 = none :=
  c8_crop_transform.2.2.1 0 0 5 100 150 200 600 800 (Or.inl (by decide))

/-- The two-document backend used for the merge examples: logical path
`A.pdf` holds three pages, `B.pdf` two. -/
def fsAB : String → List String := fun path =>
  if path = "A.pdf" then ["A1", "A2", "A3"]
  else if path = "B.pdf" then ["B1", "B2"]
  else []

/-- C9: a merge resolves each logical path through the merge record (the
recorded materialized path if present, else the path itself) and
concatenates all pages of the first resolved document then all of the
second: A (3 pages) then B (2 pages) gives A,A,A,B,B and B then A gives
B,B,A,A,A. -/
theorem c9_merge_concatenation :
    (∀ (mods : List (String × String)) (p t : String),
      mods.lookup p = some t → get_actual_pdf_path mods p = t) ∧
    (∀ (mods : List (String × String)) (p : String),
      mods.lookup p = none → get_actual_pdf_path mods p = p) ∧
    (∀ (α : Type) (fs : String → List α) (mods : List (String × String))
      (a b : String),
      perform_merge fs mods a b =
        fs (get_actual_pdf_path mods a) ++ fs (get_actual_pdf_path mods b)) ∧
    perform_merge fsAB [] "A.pdf" "B.pdf" = ["A1", "A2", "A3", "B1", "B2"] ∧
    perform_merge fsAB [] "B.pdf" "A.pdf" = ["B1", "B2", "A1", "A2", "A3"] := by
  refine ⟨?_, ?_, ?_, by rfl, by rfl⟩
  · intro mods p t h
    unfold get_actual_pdf_path
    rw [h]
  · intro mods p h
    unfold get_actual_pdf_path
    rw [h]
  · intro α fs mods a b
    rfl

/-- C9 witness: a recorded materialization redirects the resolution. -/
theorem c9_merge_concatenation_witness :
    get_actual_pdf_path [("A.pdf", "T1.pdf")] "A.pdf" = "T1.pdf" :=
  c9_merge_concatenation.1 [("A.pdf", "T1.pdf")] "A.pdf" "T1.pdf" (by rfl)

/-- C10: tokens of the forms `A-B` and bare `N` are never checked against
the current page count — their parse succeeds for every count and may
return positions above the count (`parse("50-60",10) = {50..60}`) or below
1 (`parse("0",10) = {0}`) — while the `-N` and `N-` forms are
count-checked (`parse("-11",10)` and `parse("11-",10)` fail).  In general
a token that is neither dash-prefixed nor dash-suffixed is processed
identically under any two page counts. -/
theorem c10_parse_no_bound_check :
    (∀ count : ℕ, parse_page_ranges "50-60" count =
      .ok [50, 51, 52, 53, 54, 55, 56, 57, 58, 59, 60]) ∧
    (∀ count : ℕ, parse_page_ranges "0" count = .ok [0]) ∧
    parse_page_ranges "-11" 10 = .error .range ∧
    parse_page_ranges "11-" 10 = .error .range ∧
    ∀ (count₁ count₂ : ℕ) (pages : List ℤ) (part : List Char),
      ¬(startsWithDash part ∧ 1 < part.length) →
      ¬(endsWithDash part ∧ 1 < part.length) →
      parsePart count₁ pages part = parsePart count₂ pages part := by
  refine ⟨fun count => by rfl, fun count => by rfl, by rfl, by rfl, ?_⟩
  intro c1 c2 pages part h1 h2
  unfold parsePart
  rw [if_neg h1, if_neg h2, if_neg h1, if_neg h2]

/-- C10 witness: the `A-B` token `50-60` parses the same under counts 0
and 10. -/
theorem c10_parse_no_bound_check_witness :
    parsePart 0 [] ("50-60".data) = parsePart 10 [] ("50-60".data) :=
  c10_parse_no_bound_check.2.2.2.2 0 10 [] ("50-60".data) (by decide) (by decide)
